import Mathlib

/- Shallow embedding of the IndexedDB persistence layer of the journal
   application (src/app.js and src/app2.js).  Both files create the same
   database layout in `openDB`: an object store "jour" with keyPath
   `jour_id` (autoIncrement) and a unique index on `jour_title`, an object
   store "memos" with keyPath `memo_id` (autoIncrement) and a non-unique
   index on `jour_title`, and an object store "tasks" with keyPath `id`
   (autoIncrement) and non-unique indexes on `jour_title` and `done`.
   The DOM rendering, toasts and tab code is the out-of-scope UI layer.
   Environment-dependent inputs (`todayISO()`, `nowTime()`, the modal
   dialog's text and cancel button, an injected device fault) are passed
   to the embedded operations as explicit parameters. -/

/-- Storage failures distinguishable at an IndexedDB request boundary: a
unique-index collision (`ConstraintError`) versus any other device or I/O
failure propagated through `req.onerror`. -/
inductive DBError where
  | constraintViolation
  | deviceFailure
  deriving DecidableEq, Repr

/-- A record of the "jour" object store: keyPath `jour_id` (autoIncrement),
unique index on the `jour_title` field.  `idbAdd` call sites populate
`jour_title` and `created_at` and never the key field. -/
structure JourRec where
  jour_id : Nat
  jour_title : String
  created_at : String
  deriving DecidableEq, Repr

/-- A record of the "memos" object store: keyPath `memo_id` (autoIncrement),
non-unique index on `jour_title`. -/
structure MemoRec where
  memo_id : Nat
  memo_title : String
  jour_title : String
  created_at : String
  deriving DecidableEq, Repr

/-- A record of the "tasks" object store: keyPath `id` (autoIncrement),
non-unique indexes on `jour_title` and `done`.  The `done` field is a
JavaScript value tested only for truthiness by `toggleTaskDone`; it is
modelled as an optional integer so that the absent (`undefined`) case and
arbitrary numeric values are both representable. -/
structure TaskRec where
  id : Nat
  title : String
  done : Option Int
  jour_title : String
  created_at : String
  deriving DecidableEq, Repr

/-- One IndexedDB object store with an autoIncrement key generator.
`recs` is kept in primary-key order (which coincides with insertion order
for autoincrement inserts); `nextKey` is the generator's next value —
IndexedDB key generators start at 1. -/
structure Store (α : Type) where
  recs : List α
  nextKey : Nat
  deriving DecidableEq, Repr

/-- A freshly created object store. -/
def Store.empty (α : Type) : Store α := ⟨[], 1⟩

/-- `store.add(value)` where `value` omits the key field (true of every
`idbAdd` call site): the key generator assigns `nextKey`, the record is
stored under it, and the generator advances. -/
def idbAddAuto {α : Type} (mk : Nat → α) (s : Store α) : Nat × Store α :=
  (s.nextKey, ⟨s.recs ++ [mk s.nextKey], s.nextKey + 1⟩)

/-- Whether some journal record already carries the given title (the state
of the unique `jour_title` index). -/
def jourHasTitle (title : String) (s : Store JourRec) : Bool :=
  s.recs.any (fun r => r.jour_title == title)

/-- `idbAdd("jour", { jour_title, created_at })`: the unique `jour_title`
index rejects a duplicate title with `ConstraintError`, and the aborted
transaction leaves the store unchanged; otherwise the autoincrement key is
assigned and the record persisted. -/
def jourAdd (title created : String) (s : Store JourRec) :
    Except DBError Nat × Store JourRec :=
  if jourHasTitle title s then
    (Except.error DBError.constraintViolation, s)
  else
    let ks := idbAddAuto (fun k => ⟨k, title, created⟩) s
    (Except.ok ks.1, ks.2)

/-- `jourAdd` with an injected environmental fault: when `fault` is set the
underlying request fails with a storage error that is not a unique-index
collision, and the store is untouched. -/
def jourAddF (fault : Bool) (title created : String) (s : Store JourRec) :
    Except DBError Nat × Store JourRec :=
  if fault then (Except.error DBError.deviceFailure, s)
  else jourAdd title created s

/-- `idbAdd("memos", { memo_title, jour_title, created_at })` — no unique
index, so the insert always succeeds. -/
def memoAdd (text jt created : String) (s : Store MemoRec) :
    Nat × Store MemoRec :=
  idbAddAuto (fun k => ⟨k, text, jt, created⟩) s

/-- `idbAdd("tasks", { title, done: 0, jour_title, created_at })` — no
unique index, so the insert always succeeds. -/
def taskAdd (title jt created : String) (s : Store TaskRec) :
    Nat × Store TaskRec :=
  idbAddAuto (fun k => ⟨k, title, some 0, jt, created⟩) s

/-- `idbPut("memos", value)`: upsert by the `memo_id` key — overwrite when
the key is present, insert (advancing the generator past the key) when it
is not. -/
def memoPut (v : MemoRec) (s : Store MemoRec) : Store MemoRec :=
  if s.recs.any (fun r => r.memo_id == v.memo_id) then
    ⟨s.recs.map (fun r => if r.memo_id == v.memo_id then v else r), s.nextKey⟩
  else
    ⟨s.recs ++ [v], max s.nextKey (v.memo_id + 1)⟩

/-- `idbPut("tasks", value)`: upsert by the `id` key. -/
def taskPut (v : TaskRec) (s : Store TaskRec) : Store TaskRec :=
  if s.recs.any (fun r => r.id == v.id) then
    ⟨s.recs.map (fun r => if r.id == v.id then v else r), s.nextKey⟩
  else
    ⟨s.recs ++ [v], max s.nextKey (v.id + 1)⟩

/-- `idbDelete("memos", k)`: removes the record stored under key `k`;
a no-op when the key is absent. -/
def memoDelete (k : Nat) (s : Store MemoRec) : Store MemoRec :=
  ⟨s.recs.filter (fun r => r.memo_id != k), s.nextKey⟩

/-- `idbDelete("tasks", k)`. -/
def taskDelete (k : Nat) (s : Store TaskRec) : Store TaskRec :=
  ⟨s.recs.filter (fun r => r.id != k), s.nextKey⟩

/-- `idbDelete("jour", k)`. -/
def jourDelete (k : Nat) (s : Store JourRec) : Store JourRec :=
  ⟨s.recs.filter (fun r => r.jour_id != k), s.nextKey⟩

/-- `idbIndexGetAll("memos", "jour_title", t)`: equality lookup through
`IDBKeyRange.only(t)` on the `jour_title` index — all records whose indexed
field equals `t`, in key order. -/
def memosByTitle (t : String) (s : Store MemoRec) : List MemoRec :=
  s.recs.filter (fun r => r.jour_title == t)

/-- `idbIndexGetAll("tasks", "jour_title", t)`. -/
def tasksByTitle (t : String) (s : Store TaskRec) : List TaskRec :=
  s.recs.filter (fun r => r.jour_title == t)

/-- `allJour.find(j => j.jour_title === jourTitle)` over
`idbGetAll("jour")`: the first journal record carrying the title. -/
def jourFindByTitle (t : String) (s : Store JourRec) : Option JourRec :=
  s.recs.find? (fun r => r.jour_title == t)

/-- JavaScript truthiness of the numeric-or-absent `done` field: `undefined`
and `0` are falsy, every other number is truthy. -/
def jsTruthy : Option Int → Bool
  | none => false
  | some n => n != 0

/-- `String.prototype.trim()`: strips leading and trailing whitespace.
Written by structural recursion on the character list so that concrete
inputs evaluate inside the kernel. -/
def jsTrim (s : String) : String :=
  String.mk (((s.data.dropWhile Char.isWhitespace).reverse.dropWhile
    Char.isWhitespace).reverse)

/-- `promptModal`: resolves `null` when the dialog is closed without "ok",
and `modalInput.value.trim()` otherwise. -/
def promptModal (cancelled : Bool) (input : String) : Option String :=
  if cancelled then none else some (jsTrim input)

/-- The whole persisted state together with the `currentJourTitle`
module-level variable (the active journal pointer). -/
structure AppState where
  jour : Store JourRec
  memos : Store MemoRec
  tasks : Store TaskRec
  currentJourTitle : String
  deriving DecidableEq, Repr

/-- `ensureTodayJour` (src/app2.js lines 154-166, src/app.js lines
123-137): sets the active journal to today's title, then attempts
`idbAdd("jour", { jour_title: title, created_at: nowTime() })` inside
`try { ... } catch { ... }`.  The catch clause is unconditional, so every
insert failure is swallowed; the `Except` result type records that the
async function could in principle reject.  `today` stands for `todayISO()`
and `created` for `nowTime()`. -/
def ensureTodayJour (fault : Bool) (today created : String) (app : AppState) :
    Except DBError AppState :=
  let app1 := { app with currentJourTitle := today }
  match jourAddF fault today created app1.jour with
  | (Except.ok _, s') => Except.ok { app1 with jour := s' }
  | (Except.error _, s') => Except.ok { app1 with jour := s' }

/-- One `idbDelete` call issued by the cascade, tagged with its store. -/
inductive DelOp where
  | memo (key : Nat)
  | task (key : Nat)
  | jour (key : Nat)
  deriving DecidableEq, Repr

/-- The cascade of `deleteJour` (src/app2.js lines 217-227, src/app.js
lines 172-184): locate the journal by title in `idbGetAll("jour")` (first
match); when none matches, return without any delete; otherwise fetch the
dependants through the `jour_title` index and delete every memo by key,
then every task by key, then the journal record, in that order.  The
second component is the trace of `idbDelete` calls in issue order.  The
trailing `await ensureTodayJour()` (src/app2.js line 230) is the separate
`ensureTodayJour` above, with today's date supplied by the environment. -/
def deleteJour (jourTitle : String) (app : AppState) : AppState × List DelOp :=
  match jourFindByTitle jourTitle app.jour with
  | none => (app, [])
  | some target =>
      let memos := memosByTitle jourTitle app.memos
      let tasks := tasksByTitle jourTitle app.tasks
      let memos' := memos.foldl (fun st m => memoDelete m.memo_id st) app.memos
      let tasks' := tasks.foldl (fun st t => taskDelete t.id st) app.tasks
      let jour' := jourDelete target.jour_id app.jour
      ({ app with jour := jour', memos := memos', tasks := tasks' },
        memos.map (fun m => DelOp.memo m.memo_id)
          ++ tasks.map (fun t => DelOp.task t.id)
          ++ [DelOp.jour target.jour_id])

/-- `addMemo` (src/app2.js lines 175-186, src/app.js lines 146-157): prompt
for text; `if (!v) return;` covers both the cancelled dialog (`null`) and
text that trimmed to the empty string; otherwise insert a memo under the
active journal.  The boolean reports whether an insert reached the storage
engine. -/
def addMemo (cancelled : Bool) (input created : String) (app : AppState) :
    AppState × Bool :=
  match promptModal cancelled input with
  | none => (app, false)
  | some v =>
      if v = "" then (app, false)
      else ({ app with memos := (memoAdd v app.currentJourTitle created app.memos).2 }, true)

/-- `addTask` (src/app2.js lines 204-215, src/app.js lines 159-170):
like `addMemo`, inserting `{ title: v, done: 0, jour_title, created_at }`. -/
def addTask (cancelled : Bool) (input created : String) (app : AppState) :
    AppState × Bool :=
  match promptModal cancelled input with
  | none => (app, false)
  | some v =>
      if v = "" then (app, false)
      else ({ app with tasks := (taskAdd v app.currentJourTitle created app.tasks).2 }, true)

/-- `editMemo` (src/app2.js lines 188-202): prompt with the current text;
`if (v === null) return;` on cancel, `if (!v) { toast; return; }` on empty
text — both before any storage call — otherwise
`idbPut("memos", { ...memo, memo_title: v })`.  The boolean reports whether
a `put` reached the storage engine. -/
def editMemo (cancelled : Bool) (input : String) (memo : MemoRec) (app : AppState) :
    AppState × Bool :=
  match promptModal cancelled input with
  | none => (app, false)
  | some v =>
      if v = "" then (app, false)
      else ({ app with memos := memoPut { memo with memo_title := v } app.memos }, true)

/-- The record written back by `toggleTaskDone`:
`{ ...task, done: task.done ? 0 : 1 }`. -/
def toggledRec (t : TaskRec) : TaskRec :=
  { t with done := if jsTruthy t.done then some 0 else some 1 }

/-- `toggleTaskDone` (src/app2.js lines 245-248, src/app.js lines 203-206):
writes the toggled record back with `idbPut("tasks", ...)`. -/
def toggleTaskDone (task : TaskRec) (app : AppState) : AppState :=
  { app with tasks := taskPut (toggledRec task) app.tasks }

/-- A sequence of autoincrement inserts into one store; returns the final
store and the assigned keys in insertion order. -/
def runAdds {α : Type} (mks : List (Nat → α)) (s : Store α) :
    Store α × List Nat :=
  match mks with
  | [] => (s, [])
  | mk :: rest =>
      let ks := idbAddAuto mk s
      let r := runAdds rest ks.2
      (r.1, ks.1 :: r.2)

/-- The application state right after `openDB` first creates the database:
all three stores empty, generators at 1. -/
def emptyApp : AppState :=
  ⟨Store.empty JourRec, Store.empty MemoRec, Store.empty TaskRec, ""⟩

/-- The scenario state of the spec's final testable property: one journal,
one memo and one task, all referencing the journal title "2024-01-01",
each holding key 1 in its collection. -/
def scenarioApp : AppState :=
  ⟨⟨[⟨1, "2024-01-01", "c0"⟩], 2⟩,
   ⟨[⟨1, "x", "2024-01-01", "c0"⟩], 2⟩,
   ⟨[⟨1, "y", some 0, "2024-01-01", "c0"⟩], 2⟩,
   "2024-01-01"⟩

/-- Claim C8: `idbIndexGetAll` on the `jour_title` index returns exactly
the records whose `jour_title` field equals the searched value — every
matching record is returned, no non-matching record is returned, and the
result is empty when nothing matches. -/
theorem idbIndexGetAll_exact (T : String) (sm : Store MemoRec) (st : Store TaskRec) :
    (∀ m : MemoRec, m ∈ memosByTitle T sm ↔ m ∈ sm.recs ∧ m.jour_title = T) ∧
    (∀ t : TaskRec, t ∈ tasksByTitle T st ↔ t ∈ st.recs ∧ t.jour_title = T) ∧
    ((∀ m ∈ sm.recs, m.jour_title ≠ T) → memosByTitle T sm = []) ∧
    ((∀ t ∈ st.recs, t.jour_title ≠ T) → tasksByTitle T st = []) := by
  refine ⟨fun m => ?_, fun t => ?_, fun h => ?_, fun h => ?_⟩
  · simp [memosByTitle, List.mem_filter]
  · simp [tasksByTitle, List.mem_filter]
  · simp only [memosByTitle, List.filter_eq_nil_iff]
    intro a ha
    simpa using h a ha
  · simp only [tasksByTitle, List.filter_eq_nil_iff]
    intro a ha
    simpa using h a ha

/-- Witness for C8 at a concrete store and title. -/
theorem idbIndexGetAll_exact_witness :
    (MemoRec.mk 1 "x" "2024-01-01" "c0" ∈ memosByTitle "2024-01-01" scenarioApp.memos
        ↔ MemoRec.mk 1 "x" "2024-01-01" "c0" ∈ scenarioApp.memos.recs
            ∧ (MemoRec.mk 1 "x" "2024-01-01" "c0").jour_title = "2024-01-01") ∧
    tasksByTitle "other" scenarioApp.tasks = [] :=
  ⟨(idbIndexGetAll_exact "2024-01-01" scenarioApp.memos scenarioApp.tasks).1 _,
   (idbIndexGetAll_exact "other" scenarioApp.memos scenarioApp.tasks).2.2.2
     (by decide)⟩

/-- A `put` of `v` always leaves `v` stored: overwrite keeps it at its key's
position, insert appends it. -/
theorem taskPut_mem (v : TaskRec) (s : Store TaskRec) : v ∈ (taskPut v s).recs := by
  unfold taskPut
  cases h : s.recs.any (fun r => r.id == v.id) with
  | false => simp
  | true =>
      rcases List.any_eq_true.mp h with ⟨r, hr, hid⟩
      simp only [if_true]
      exact List.mem_map.mpr ⟨r, hr, by simp [hid]⟩

/-- Claim C9: a single `toggleTaskDone` writes back `done = 0` from any
truthy prior value and `done = 1` from any falsy prior value (absent
included), so the stored `done` field is exactly 0 or exactly 1 after one
toggle, whatever the starting value. -/
theorem toggleTaskDone_two_state (task : TaskRec) (app : AppState) :
    toggledRec task ∈ (toggleTaskDone task app).tasks.recs ∧
    (toggledRec task).done = (if jsTruthy task.done then some 0 else some 1) ∧
    ((toggledRec task).done = some 0 ∨ (toggledRec task).done = some 1) ∧
    (toggledRec { task with done := none }).done = some 1 := by
  refine ⟨taskPut_mem _ _, rfl, ?_, rfl⟩
  cases h : jsTruthy task.done <;> simp [toggledRec, h]

/-- Claim C6: editing a memo whose replacement text trims to empty (or whose
dialog was cancelled) issues no `put` and leaves the application state
unchanged — the rejection happens inside `editMemo`, before any storage
write. -/
theorem editMemo_empty_rejected (cancelled : Bool) (input : String)
    (memo : MemoRec) (app : AppState) (h : jsTrim input = "") :
    editMemo cancelled input memo app = (app, false) := by
  cases cancelled
  · simp [editMemo, promptModal, h]
  · rfl

/-- Witness for C6: whitespace-only replacement text on the scenario
state. -/
theorem editMemo_empty_rejected_witness :
    editMemo false "   " (MemoRec.mk 1 "x" "2024-01-01" "c0") scenarioApp
      = (scenarioApp, false) :=
  editMemo_empty_rejected false "   " (MemoRec.mk 1 "x" "2024-01-01" "c0")
    scenarioApp (by decide)

/-- Claim C10: when the dialog is cancelled or the entered text trims to
empty, `addMemo` and `addTask` return before `idbAdd`, so no insert reaches
the storage engine and all three collections (and the active title) are
unchanged. -/
theorem addBlank_noop (cancelled : Bool) (input created : String)
    (app : AppState) (h : cancelled = true ∨ jsTrim input = "") :
    addMemo cancelled input created app = (app, false) ∧
    addTask cancelled input created app = (app, false) := by
  rcases h with h | h
  · subst h
    exact ⟨rfl, rfl⟩
  · cases cancelled
    · simp [addMemo, addTask, promptModal, h]
    · exact ⟨rfl, rfl⟩

/-- Witness for C10: whitespace-only input on the scenario state. -/
theorem addBlank_noop_witness :
    addMemo false "   " "c0" scenarioApp = (scenarioApp, false) ∧
    addTask false "   " "c0" scenarioApp = (scenarioApp, false) :=
  addBlank_noop false "   " "c0" scenarioApp (Or.inr (by decide))

/-- Counterexample to claim C1 as stated: injecting a storage failure that
is not a unique-index collision (`deviceFailure`), `ensureTodayJour` still
completes successfully with no record written — the unconditional catch
clause swallows every insert failure instead of letting the operation
reject. -/
theorem ensureTodayJour_deviceFailure_ok :
    ensureTodayJour true "2024-01-01" "c0" emptyApp =
      Except.ok { emptyApp with currentJourTitle := "2024-01-01" } ∧
    (ensureTodayJour true "2024-01-01" "c0" emptyApp).isOk = true :=
  ⟨rfl, rfl⟩

/-- Claim C1 (amended): every failure of the journal insert — unique-index
collision or any other storage failure — is caught, the call always
completes successfully, failure branches write no record, a successful
insert appends exactly one record, and in every branch the given title
becomes the active journal while memos and tasks are untouched. -/
theorem ensureTodayJour_total_spec (fault : Bool) (today created : String)
    (app : AppState) :
    ensureTodayJour fault today created app =
      Except.ok { app with
        currentJourTitle := today
        jour := (jourAddF fault today created app.jour).2 } ∧
    ((jourAddF fault today created app.jour).1.isOk = false →
      (jourAddF fault today created app.jour).2 = app.jour) ∧
    ((jourAddF fault today created app.jour).1.isOk = true →
      (jourAddF fault today created app.jour).2.recs
        = app.jour.recs ++ [JourRec.mk app.jour.nextKey today created]) := by
  refine ⟨?_, ?_, ?_⟩
  · unfold ensureTodayJour
    rcases he : jourAddF fault today created app.jour with ⟨e, s2⟩
    cases e <;> simp [he]
  · cases fault
    · by_cases hT : jourHasTitle today app.jour
      · intro _
        simp [jourAddF, jourAdd, hT]
      · intro hk
        simp [jourAddF, jourAdd, hT, Except.isOk, Except.toBool] at hk
    · intro _
      rfl
  · cases fault
    · by_cases hT : jourHasTitle today app.jour
      · intro hk
        simp [jourAddF, jourAdd, hT, Except.isOk, Except.toBool] at hk
      · intro _
        simp [jourAddF, jourAdd, hT, idbAddAuto]
    · intro hk
      simp [jourAddF, Except.isOk, Except.toBool] at hk

/-- Witness for the amended C1: a successful run on the empty database. -/
theorem ensureTodayJour_total_spec_witness :
    ensureTodayJour false "2024-01-01" "c0" emptyApp =
      Except.ok { emptyApp with
        currentJourTitle := "2024-01-01"
        jour := (jourAddF false "2024-01-01" "c0" emptyApp.jour).2 } ∧
    (jourAddF false "2024-01-01" "c0" emptyApp.jour).2.recs
      = emptyApp.jour.recs
          ++ [JourRec.mk emptyApp.jour.nextKey "2024-01-01" "c0"] :=
  ⟨(ensureTodayJour_total_spec false "2024-01-01" "c0" emptyApp).1,
   (ensureTodayJour_total_spec false "2024-01-01" "c0" emptyApp).2.2 (by decide)⟩

/-- Claim C2: the cascade of `deleteJour` performs no delete and leaves the
state unchanged when no journal record carries the title; when one matches
(the first in key order), the `idbDelete` trace is exactly the keys of the
memos whose `jour_title` equals the title, then the keys of the matching
tasks, then the matched journal's key, in that order. -/
theorem deleteJour_order (T : String) (app : AppState) :
    (jourFindByTitle T app.jour = none → deleteJour T app = (app, [])) ∧
    (∀ target, jourFindByTitle T app.jour = some target →
      (deleteJour T app).2 =
        (memosByTitle T app.memos).map (fun m => DelOp.memo m.memo_id)
          ++ (tasksByTitle T app.tasks).map (fun t => DelOp.task t.id)
          ++ [DelOp.jour target.jour_id]) := by
  constructor
  · intro h
    simp [deleteJour, h]
  · intro target h
    simp [deleteJour, h]

/-- Witness for C2: both branches on the scenario state. -/
theorem deleteJour_order_witness :
    deleteJour "2023-12-31" scenarioApp = (scenarioApp, []) ∧
    (deleteJour "2024-01-01" scenarioApp).2 =
      (memosByTitle "2024-01-01" scenarioApp.memos).map (fun m => DelOp.memo m.memo_id)
        ++ (tasksByTitle "2024-01-01" scenarioApp.tasks).map (fun t => DelOp.task t.id)
        ++ [DelOp.jour (JourRec.mk 1 "2024-01-01" "c0").jour_id] :=
  ⟨(deleteJour_order "2023-12-31" scenarioApp).1 (by decide),
   (deleteJour_order "2024-01-01" scenarioApp).2
     (JourRec.mk 1 "2024-01-01" "c0") (by decide)⟩

/-- Claim C3: starting from one journal, one memo and one task all
referencing title "2024-01-01" (each under key 1), the cascade empties the
memo, task and journal collections, and a subsequent ensure of the same
title succeeds and creates a fresh journal record under key 2 — a key
different from the deleted record's key 1. -/
theorem deleteJour_scenario :
    (deleteJour "2024-01-01" scenarioApp).1.memos.recs = [] ∧
    (deleteJour "2024-01-01" scenarioApp).1.tasks.recs = [] ∧
    (deleteJour "2024-01-01" scenarioApp).1.jour.recs = [] ∧
    scenarioApp.jour.recs.map JourRec.jour_id = [1] ∧
    ensureTodayJour false "2024-01-01" "c1" (deleteJour "2024-01-01" scenarioApp).1
      = Except.ok (AppState.mk ⟨[JourRec.mk 2 "2024-01-01" "c1"], 3⟩
          ⟨[], 2⟩ ⟨[], 2⟩ "2024-01-01") :=
  ⟨rfl, rfl, rfl, rfl, rfl⟩

/-- A colliding insert returns `ConstraintViolation` and the untouched
store. -/
theorem jourAdd_of_hasTitle (t c : String) (s : Store JourRec)
    (h : jourHasTitle t s = true) :
    jourAdd t c s = (Except.error DBError.constraintViolation, s) := by
  simp [jourAdd, h]

/-- A non-colliding insert assigns the generator's key and appends the
record. -/
theorem jourAdd_of_not_hasTitle (t c : String) (s : Store JourRec)
    (h : jourHasTitle t s = false) :
    jourAdd t c s =
      (Except.ok s.nextKey,
        ⟨s.recs ++ [JourRec.mk s.nextKey t c], s.nextKey + 1⟩) := by
  simp [jourAdd, h, idbAddAuto]

/-- Claim C4: when no journal record carries title T, a first insert of T
succeeds with the generator's key; a second insert of T then fails with
`ConstraintViolation` (the collision kind, not any other failure), leaves
the store exactly as the first insert left it, and the first record remains
the only one retrievable by title T. -/
theorem jourAdd_duplicate_title (T c c' : String) (s0 : Store JourRec)
    (h : jourHasTitle T s0 = false) :
    (jourAdd T c s0).1 = Except.ok s0.nextKey ∧
    (jourAdd T c' (jourAdd T c s0).2).1
      = Except.error DBError.constraintViolation ∧
    (jourAdd T c' (jourAdd T c s0).2).2 = (jourAdd T c s0).2 ∧
    (jourAdd T c s0).2.recs.filter (fun r => r.jour_title == T)
      = [JourRec.mk s0.nextKey T c] := by
  have h' : s0.recs.any (fun r => r.jour_title == T) = false := h
  have h1 := jourAdd_of_not_hasTitle T c s0 h
  have hfull : jourHasTitle T (jourAdd T c s0).2 = true := by
    rw [h1]
    simp [jourHasTitle, List.any_append]
  have h2 := jourAdd_of_hasTitle T c' (jourAdd T c s0).2 hfull
  have hnil : s0.recs.filter (fun r => r.jour_title == T) = [] := by
    rw [List.filter_eq_nil_iff]
    intro a ha
    have := (List.any_eq_false.mp h') a ha
    simpa using this
  refine ⟨by rw [h1], by rw [h2], by rw [h2], ?_⟩
  rw [h1]
  simp [List.filter_append, hnil]

/-- Witness for C4: duplicate title "2024-01-01" on the fresh store. -/
theorem jourAdd_duplicate_title_witness :
    (jourAdd "2024-01-01" "c0" (Store.empty JourRec)).1 = Except.ok 1 ∧
    (jourAdd "2024-01-01" "c1"
        (jourAdd "2024-01-01" "c0" (Store.empty JourRec)).2).1
      = Except.error DBError.constraintViolation ∧
    (jourAdd "2024-01-01" "c1"
        (jourAdd "2024-01-01" "c0" (Store.empty JourRec)).2).2
      = (jourAdd "2024-01-01" "c0" (Store.empty JourRec)).2 ∧
    (jourAdd "2024-01-01" "c0" (Store.empty JourRec)).2.recs.filter
        (fun r => r.jour_title == "2024-01-01")
      = [JourRec.mk 1 "2024-01-01" "c0"] :=
  jourAdd_duplicate_title "2024-01-01" "c0" "c1" (Store.empty JourRec) (by decide)

/-- A filter that returns exactly one element: that element is a member,
satisfies the predicate, and is the only member satisfying it. -/
theorem filter_eq_singleton_facts {α : Type} {p : α → Bool} {l : List α} {a : α}
    (h : l.filter p = [a]) :
    a ∈ l ∧ p a = true ∧ ∀ b ∈ l, p b = true → b = a := by
  have hmem : a ∈ l.filter p := by
    rw [h]
    exact List.mem_singleton_self a
  refine ⟨(List.mem_filter.mp hmem).1, (List.mem_filter.mp hmem).2, ?_⟩
  intro b hb hpb
  have hbf : b ∈ l.filter p := List.mem_filter.mpr ⟨hb, hpb⟩
  rw [h] at hbf
  exact List.mem_singleton.mp hbf

/-- Mapping a function that fixes every member is the identity. -/
theorem map_eq_self_of_fix {α : Type} {f : α → α} {l : List α}
    (h : ∀ a ∈ l, f a = a) : l.map f = l := by
  induction l with
  | nil => rfl
  | cons c t ih =>
      rw [List.map_cons, h c (List.mem_cons_self c t),
        ih (fun a ha => h a (List.mem_cons_of_mem c ha))]

/-- Overwriting a uniquely stored record by key and then overwriting it
back with the original restores the store exactly. -/
theorem taskPut_roundtrip (a b : TaskRec) (s : Store TaskRec)
    (huniq : s.recs.filter (fun r => r.id == a.id) = [a])
    (hb : b.id = a.id) :
    taskPut a (taskPut b s) = s := by
  obtain ⟨hmem, hp, honly⟩ := filter_eq_singleton_facts huniq
  have hany1 : s.recs.any (fun r => r.id == b.id) = true :=
    List.any_eq_true.mpr ⟨a, hmem, by rw [hb]; simp⟩
  have h1 : taskPut b s
      = ⟨s.recs.map (fun r => if r.id == b.id then b else r), s.nextKey⟩ := by
    unfold taskPut
    rw [hany1, if_pos rfl]
  rw [h1]
  have hanyb : ((s.recs.map (fun r => if r.id == b.id then b else r)).any
      (fun r => r.id == a.id)) = true := by
    refine List.any_eq_true.mpr ⟨b, ?_, by rw [hb]; simp⟩
    exact List.mem_map.mpr ⟨a, hmem, by rw [hb]; simp⟩
  have h2 : taskPut a ⟨s.recs.map (fun r => if r.id == b.id then b else r), s.nextKey⟩
      = ⟨(s.recs.map (fun r => if r.id == b.id then b else r)).map
          (fun r => if r.id == a.id then a else r), s.nextKey⟩ := by
    unfold taskPut
    rw [hanyb, if_pos rfl]
  rw [h2, List.map_map]
  have hfix : ∀ r ∈ s.recs,
      ((fun r => if r.id == a.id then a else r)
        ∘ (fun r => if r.id == b.id then b else r)) r = r := by
    intro r hr
    by_cases hc : (r.id == a.id) = true
    · have hra : r = a := honly r hr hc
      subst hra
      simp [Function.comp, hb]
    · simp only [Bool.not_eq_true] at hc
      have hcb : (r.id == b.id) = false := by rw [hb]; exact hc
      simp [Function.comp, hcb, hc]
  rw [map_eq_self_of_fix hfix]

/-- Claim C5: for a task stored exactly once under its key with `done`
equal to 0 or 1, toggling twice restores the whole application state; the
toggled record keeps the key and every field other than `done`, and the
double toggle restores the record itself. -/
theorem toggleTaskDone_twice (task : TaskRec) (app : AppState)
    (huniq : app.tasks.recs.filter (fun r => r.id == task.id) = [task])
    (hdone : task.done = some 0 ∨ task.done = some 1) :
    toggleTaskDone (toggledRec task) (toggleTaskDone task app) = app ∧
    toggledRec (toggledRec task) = task ∧
    (toggledRec task).id = task.id ∧
    (toggledRec task).title = task.title ∧
    (toggledRec task).jour_title = task.jour_title ∧
    (toggledRec task).created_at = task.created_at := by
  have hrt : toggledRec (toggledRec task) = task := by
    obtain ⟨i, ti, d, jt, ca⟩ := task
    rcases hdone with h0 | h0
    · have h0' : d = some 0 := h0
      subst h0'
      rfl
    · have h0' : d = some 1 := h0
      subst h0'
      rfl
  refine ⟨?_, hrt, rfl, rfl, rfl, rfl⟩
  show { app with
    tasks := taskPut (toggledRec (toggledRec task))
      (taskPut (toggledRec task) app.tasks) } = app
  rw [hrt, taskPut_roundtrip task (toggledRec task) app.tasks huniq rfl]

/-- Witness for C5: the scenario task (key 1, `done = 0`) toggled twice. -/
theorem toggleTaskDone_twice_witness :
    toggleTaskDone (toggledRec (TaskRec.mk 1 "y" (some 0) "2024-01-01" "c0"))
        (toggleTaskDone (TaskRec.mk 1 "y" (some 0) "2024-01-01" "c0") scenarioApp)
      = scenarioApp :=
  (toggleTaskDone_twice (TaskRec.mk 1 "y" (some 0) "2024-01-01" "c0") scenarioApp
    (by decide) (Or.inl rfl)).1

/-- The keys assigned by a run of autoincrement inserts are the consecutive
naturals starting at the generator's current value. -/
theorem runAdds_keys {α : Type} (mks : List (Nat → α)) (s : Store α) :
    (runAdds mks s).2 = List.range' s.nextKey mks.length := by
  induction mks generalizing s with
  | nil => rfl
  | cons mk rest ih =>
      rw [List.length_cons, List.range'_succ]
      show s.nextKey :: (runAdds rest ⟨s.recs ++ [mk s.nextKey], s.nextKey + 1⟩).2
        = s.nextKey :: List.range' (s.nextKey + 1) rest.length
      rw [ih]

/-- Claim C7: over any sequence of inserts whose values omit the key field,
the keys assigned by the autoincrement generator strictly increase with
insertion order and are pairwise distinct within the collection. -/
theorem runAdds_keys_increasing {α : Type} (mks : List (Nat → α)) (s : Store α) :
    List.Chain' (· < ·) (runAdds mks s).2 ∧ (runAdds mks s).2.Nodup := by
  have hp : List.Pairwise (· < ·) (runAdds mks s).2 := by
    rw [runAdds_keys]
    exact List.pairwise_lt_range' s.nextKey mks.length 1 (by decide)
  exact ⟨hp.chain', hp.imp (fun h => Nat.ne_of_lt h)⟩
